import Mathlib

/-!
Shallow embedding of `src/main.py` of the veilid-dht-stats repository.

The script maintains a population of DHT "probe" records. Each record is a
Python dict; we embed it as the structure `Experiment` below (the optional
`exception` key, added by `run_experiment` on failure, becomes an
`Option String` field). Python floats returned by `time.time()` are embedded
as rationals; byte strings are embedded as lists of bytes (`List Nat`), since
the script only ever uses their length.

Network effects (the `veilid` client calls) are embedded as explicit outcome
environments: each network call's result (success value or raised exception
message) is an input to the embedded function, and `asyncio.gather` over
independent coroutines becomes a `List.map` over per-call environments,
with the default `return_exceptions=False` semantics modelled explicitly
(the first raised exception propagates; a never-settling creation makes the
cycle hang).
-/

set_option autoImplicit false

namespace VeilidDhtStats

/-- Embedding of one experiment dict, as built by `create_experiment` and
mutated by `run_experiment` in `src/main.py`. `exception := none` means the
dict has no `"exception"` key. -/
structure Experiment where
  payload_size_b : Nat
  evaluation_time_interval_h : Nat
  dht_record_key : String
  next_evaluation_unixtime : Option ℚ
  evaluation_start_unixtimes : List ℚ
  evaluation_durations_s : List ℚ
  exception : Option String
deriving DecidableEq, Repr

/-- Outcome environment for one `run_experiment` call: the two `time.time()`
readings and the results of the three network calls
(`open_dht_record`, `get_dht_value`, `close_dht_record`).
`Except.error msg` models the call raising an exception with `str(e) = msg`;
a successful `get_dht_value` returns the content bytes. -/
structure EvalEnv where
  startTime : ℚ
  endTime : ℚ
  openRes : Except String Unit
  readRes : Except String (List Nat)
  closeRes : Except String Unit

/-- The message `str(e)` for the `TypeError` raised by `None + int`
(`exp["next_evaluation_unixtime"] += ...` when the value is `None`). -/
def typeErrorMessage : String :=
  "unsupported operand type for +=: NoneType and int"

/-- The `try:` block body of `run_experiment` (`src/main.py` lines 58-71):
open, read, close, advance `next_evaluation_unixtime` by
`evaluation_time_interval_h * 60 * 60`, then raise `ValueError` on a payload
size mismatch. `Except.error msg` is a raised exception caught by the
`except` clause. -/
def run_body (env : EvalEnv) (exp : Experiment) : Except String Experiment :=
  match env.openRes with
  | Except.error e => Except.error e
  | Except.ok _ =>
    match env.readRes with
    | Except.error e => Except.error e
    | Except.ok content =>
      match env.closeRes with
      | Except.error e => Except.error e
      | Except.ok _ =>
        match exp.next_evaluation_unixtime with
        | none => Except.error typeErrorMessage
        | some t =>
          let newTime : Option ℚ := some (t + (exp.evaluation_time_interval_h : ℚ) * 60 * 60)
          let exp := { exp with next_evaluation_unixtime := newTime }
          if exp.payload_size_b ≠ content.length then
            Except.error ("Expected payload size " ++ toString exp.payload_size_b
              ++ " but got " ++ toString content.length)
          else
            Except.ok exp

/-- Embedding of `run_experiment` (`src/main.py` lines 54-77): on any exception the
`except` clause records `str(e)` under the `"exception"` key and sets
`next_evaluation_unixtime` to `None`; in all cases one start time and one
duration are appended to the history lists. -/
def run_experiment (env : EvalEnv) (experiment : Experiment) : Experiment :=
  let exp :=
    match run_body env experiment with
    | Except.ok e => e
    | Except.error msg =>
        { experiment with exception := some msg, next_evaluation_unixtime := none }
  { exp with
    evaluation_start_unixtimes := exp.evaluation_start_unixtimes ++ [env.startTime],
    evaluation_durations_s := exp.evaluation_durations_s ++ [env.endTime - env.startTime] }

/-- The fixed set `[1, 12, 24, 168, 672]` that `random.choice` draws
`evaluation_time_interval_h` from (`src/main.py` line 46). -/
def interval_choices : List Nat := [1, 12, 24, 168, 672]

/-- Outcome environment for one `create_experiment` call: the random payload
bytes, the results of `create_dht_record` (its key on success),
`set_dht_value`, the successive `inspect_dht_record` reports seen by the
settle loop (each an offline-subkeys list on success), `close_dht_record`,
the index `random.choice` picks into `interval_choices`, and the
`time.time()` reading stored as `next_evaluation_unixtime`. -/
structure CreateEnv where
  payload : List Nat
  createRes : Except String String
  setRes : Except String Unit
  inspects : List (Except String (List Nat))
  closeRes : Except String Unit
  intervalIdx : Fin interval_choices.length
  finishTime : ℚ

/-- Result of the settle loop (`src/main.py` lines 34-40): it breaks once a
report has no offline subkeys, propagates an exception from
`inspect_dht_record`, and otherwise loops forever (`diverged`: the supplied
report sequence is exhausted without an empty one). -/
inductive SettleResult where
  | settled
  | failed (msg : String)
  | diverged
deriving DecidableEq

/-- The `while True:` settle loop over the successive inspect outcomes. -/
def settle_loop : List (Except String (List Nat)) → SettleResult
  | [] => SettleResult.diverged
  | Except.error e :: _ => SettleResult.failed e
  | Except.ok [] :: _ => SettleResult.settled
  | Except.ok (_ :: _) :: rest => settle_loop rest

/-- Result of one `create_experiment` call: a returned dict, a raised
exception (the function has no `try`/`except`), or a hang in the settle
loop. -/
inductive CreateResult where
  | ok (e : Experiment)
  | err (msg : String)
  | hang
deriving DecidableEq, Repr

/-- Embedding of `create_experiment` (`src/main.py` lines 26-51): create a record, write
the payload to subkey 0, wait for it to settle, close it, and return the new
experiment dict with empty history lists. Any exception propagates to the
caller unhandled. -/
def create_experiment (env : CreateEnv) : CreateResult :=
  match env.createRes with
  | Except.error e => CreateResult.err e
  | Except.ok key =>
    match env.setRes with
    | Except.error e => CreateResult.err e
    | Except.ok _ =>
      match settle_loop env.inspects with
      | SettleResult.failed e => CreateResult.err e
      | SettleResult.diverged => CreateResult.hang
      | SettleResult.settled =>
        match env.closeRes with
        | Except.error e => CreateResult.err e
        | Except.ok _ =>
          CreateResult.ok
            { payload_size_b := env.payload.length
              evaluation_time_interval_h := interval_choices.get env.intervalIdx
              dht_record_key := key
              next_evaluation_unixtime := some env.finishTime
              evaluation_start_unixtimes := []
              evaluation_durations_s := []
              exception := none }

/-- The in-memory store: the `experiments` Python dict, embedded as an
insertion-ordered association list (Python dicts preserve insertion order;
assignment to an existing key updates in place). -/
abbrev Store := List (String × Experiment)

/-- Assignment `experiments[k] = v`: update in place if the key exists, else append. -/
def dictInsert (m : Store) (k : String) (v : Experiment) : Store :=
  if k ∈ m.map Prod.fst then
    m.map (fun p => if p.1 = k then (k, v) else p)
  else
    m ++ [(k, v)]

/-- Subscript `experiments[k]`, as a lookup returning `none` for a missing key. -/
def dictLookup (m : Store) (k : String) : Option Experiment :=
  match m with
  | [] => none
  | p :: rest => if p.1 = k then some p.2 else dictLookup rest k

/-- The `num_max_experiments = 100` constant of `main`. -/
def num_max_experiments : Nat := 100

/-- The dict comprehension selecting experiments due for evaluation
(`src/main.py` lines 99-104): `next_evaluation_unixtime` is not `None` and
is below the current time. -/
def pendingExperiments (store : Store) (now : ℚ) : Store :=
  store.filter (fun p =>
    match p.2.next_evaluation_unixtime with
    | none => false
    | some t => decide (t < now))

/-- The merge loops `experiments[e["dht_record_key"]] = e`
(`src/main.py` lines 109-110 and 123-124). -/
def mergeRecords (store : Store) (records : List Experiment) : Store :=
  records.foldl (fun m e => dictInsert m e.dht_record_key e) store

/-- The list comprehension selecting experiments that have not ended
(`src/main.py` lines 113-117). -/
def activeExperiments (store : Store) : List Experiment :=
  (store.map Prod.snd).filter (fun e => e.next_evaluation_unixtime.isSome)

/-- The deficit `num_new_experiments = max(0, num_max_experiments - len(active_experiments))`
(`src/main.py` line 119), with Python int arithmetic embedded in `Int`. -/
def num_new_experiments (active : Nat) : Nat :=
  (max 0 ((num_max_experiments : Int) - (active : Int))).toNat

/-- First exception among the gathered `create_experiment` coroutines:
with `asyncio.gather`'s default `return_exceptions=False`, one raised
exception propagates to the awaiting coroutine. -/
def firstCreateError : List CreateResult → Option String
  | [] => none
  | CreateResult.err m :: _ => some m
  | _ :: rest => firstCreateError rest

/-- Whether any gathered creation hangs in its settle loop. -/
def anyCreateHang (l : List CreateResult) : Bool :=
  l.any (fun c => match c with | CreateResult.hang => true | _ => false)

/-- The successfully returned experiments among the gathered creations. -/
def okRecords : List CreateResult → List Experiment
  | [] => []
  | CreateResult.ok e :: rest => e :: okRecords rest
  | _ :: rest => okRecords rest

/-- Outcome of one invocation of `main` after the connection is established:
either `result.write_text` runs with the final store, or an exception
propagates out of the cycle before persistence, or the cycle hangs in a
settle loop. -/
inductive CycleResult where
  | saved (store : Store)
  | raised (msg : String)
  | hanged
deriving DecidableEq

/-- The store after the evaluation phase of `main`: run the due experiments
and merge the updated dicts back by their `dht_record_key` field. -/
def mergedAfterEvaluations (store : Store) (now : ℚ) (evalEnv : String → EvalEnv) : Store :=
  mergeRecords store
    ((pendingExperiments store now).map (fun p => run_experiment (evalEnv p.1) p.2))

/-- The number of creations the cycle launches: the deficit computed over
the merged store. -/
def cycleNumNew (store : Store) (now : ℚ) (evalEnv : String → EvalEnv) : Nat :=
  num_new_experiments (activeExperiments (mergedAfterEvaluations store now evalEnv)).length

/-- Whether the cycle ended with an exception propagating out of
`asyncio.gather`. -/
def CycleResult.isRaised : CycleResult → Bool
  | CycleResult.raised _ => true
  | _ => false

/-- The gathered outcomes of the `create_experiment` coroutines launched to
fill the deficit. -/
def mainCreations (store : Store) (now : ℚ) (evalEnv : String → EvalEnv)
    (createEnv : Nat → CreateEnv) : List CreateResult :=
  (List.range (cycleNumNew store now evalEnv)).map (fun i => create_experiment (createEnv i))

/-- One maintenance cycle, the body of `main` (`src/main.py` lines 96-126):
select due experiments, gather their evaluations, merge, compute the
deficit, gather that many creations, merge, persist. `evalEnv` supplies the
network outcomes for the evaluation of the record stored under a given key;
`createEnv i` supplies them for the i-th creation. The per-item
`time.time()` calls of the due filter are embedded as the single reading
`now`. If any gathered creation raises, the exception propagates and
nothing is persisted; if none raises and one never settles, the cycle
hangs. -/
def main (store : Store) (now : ℚ) (evalEnv : String → EvalEnv)
    (createEnv : Nat → CreateEnv) : CycleResult :=
  match firstCreateError (mainCreations store now evalEnv createEnv) with
  | some msg => CycleResult.raised msg
  | none =>
    if anyCreateHang (mainCreations store now evalEnv createEnv) then
      CycleResult.hanged
    else
      CycleResult.saved
        (mergeRecords (mergedAfterEvaluations store now evalEnv)
          (okRecords (mainCreations store now evalEnv createEnv)))

/-! ## The persisted JSON document

`main` persists the store with `result.write_text(json.dumps(experiments))`
and reloads it with `json.loads(result.read_text())`. We embed the JSON
value tree that `json.dumps` serialises and `json.loads` parses back
(the text layer is the Python standard library, which round-trips every
value appearing here exactly). -/

/-- A JSON value as produced from the experiments dict: Python numbers
(ints and the floats of `time.time()`, both embedded in `ℚ`), strings,
`None`, arrays and objects. -/
inductive Json where
  | null
  | num (q : ℚ)
  | str (s : String)
  | arr (xs : List Json)
  | obj (kvs : List (String × Json))

/-- The keys of a JSON object. -/
def jsonKeys : Json → List String
  | Json.obj kvs => kvs.map Prod.fst
  | _ => []

/-- How `json.dumps` serialises one experiment dict: the six keys in the
insertion order of `create_experiment`s dict literal, followed by the
`"exception"` key when `run_experiment` has added it. -/
def experimentToJson (e : Experiment) : Json :=
  Json.obj
    ([("payload_size_b", Json.num e.payload_size_b),
      ("evaluation_time_interval_h", Json.num e.evaluation_time_interval_h),
      ("dht_record_key", Json.str e.dht_record_key),
      ("next_evaluation_unixtime",
        match e.next_evaluation_unixtime with
        | none => Json.null
        | some q => Json.num q),
      ("evaluation_start_unixtimes", Json.arr (e.evaluation_start_unixtimes.map Json.num)),
      ("evaluation_durations_s", Json.arr (e.evaluation_durations_s.map Json.num))]
    ++ (match e.exception with
        | none => []
        | some s => [("exception", Json.str s)]))

/-- How `json.dumps` serialises the whole experiments dict. -/
def storeToJson (store : Store) : Json :=
  Json.obj (store.map (fun p => (p.1, experimentToJson p.2)))

/-- Parsing a Python non-negative int back from a JSON number. -/
def decodeNat (j : Json) : Option Nat :=
  match j with
  | Json.num q => if q.den = 1 ∧ 0 ≤ q.num then some q.num.toNat else none
  | _ => none

/-- Parsing a timestamp (`null` or a number) back from JSON. -/
def decodeOptTime : Json → Option (Option ℚ)
  | Json.null => some none
  | Json.num q => some (some q)
  | _ => none

/-- Parsing a list of numbers back from the elements of a JSON array. -/
def decodeNumList : List Json → Option (List ℚ)
  | [] => some []
  | Json.num q :: rest => (decodeNumList rest).map (fun l => q :: l)
  | _ => none

/-- How `json.loads` reconstructs one experiment dict from a document
written by this program. -/
def experimentFromJson : Json → Option Experiment
  | Json.obj (("payload_size_b", pj) :: ("evaluation_time_interval_h", ij) ::
      ("dht_record_key", kj) :: ("next_evaluation_unixtime", nj) ::
      ("evaluation_start_unixtimes", Json.arr sj) ::
      ("evaluation_durations_s", Json.arr dj) :: rest) => do
    let ps ← decodeNat pj
    let ival ← decodeNat ij
    let key ← match kj with | Json.str s => some s | _ => none
    let next ← decodeOptTime nj
    let starts ← decodeNumList sj
    let durs ← decodeNumList dj
    let exc ← match rest with
      | [] => some none
      | [("exception", Json.str s)] => some (some s)
      | _ => none
    some { payload_size_b := ps
           evaluation_time_interval_h := ival
           dht_record_key := key
           next_evaluation_unixtime := next
           evaluation_start_unixtimes := starts
           evaluation_durations_s := durs
           exception := exc }
  | _ => none

/-- How `json.loads` reconstructs the entries of the experiments dict. -/
def storeEntriesFromJson : List (String × Json) → Option Store
  | [] => some []
  | p :: rest =>
    match experimentFromJson p.2, storeEntriesFromJson rest with
    | some e, some l => some ((p.1, e) :: l)
    | _, _ => none

/-- How `json.loads` reconstructs the whole experiments dict. -/
def storeFromJson : Json → Option Store
  | Json.obj kvs => storeEntriesFromJson kvs
  | _ => none

/-! ## Basic lemmas about the evaluation executor -/

theorem run_body_success (env : EvalEnv) (exp : Experiment) (t : ℚ) (c : List Nat)
    (ho : env.openRes = Except.ok ()) (hr : env.readRes = Except.ok c)
    (hc : env.closeRes = Except.ok ())
    (hn : exp.next_evaluation_unixtime = some t)
    (hl : exp.payload_size_b = c.length) :
    run_body env exp =
      Except.ok { exp with
        next_evaluation_unixtime := some (t + (exp.evaluation_time_interval_h : ℚ) * 60 * 60) } := by
  simp [run_body, ho, hr, hc, hn, hl]

theorem run_body_error_shapes (env : EvalEnv) (exp : Experiment)
    (h : (∃ e, env.openRes = Except.error e) ∨ (∃ e, env.readRes = Except.error e) ∨
      (∃ e, env.closeRes = Except.error e) ∨ exp.next_evaluation_unixtime = none ∨
      (∃ c, env.readRes = Except.ok c ∧ exp.payload_size_b ≠ c.length)) :
    ∃ m, run_body env exp = Except.error m := by
  rcases ho : env.openRes with e | u
  · exact ⟨e, by simp [run_body, ho]⟩
  · rcases hr : env.readRes with e | c
    · exact ⟨e, by simp [run_body, ho, hr]⟩
    · rcases hc : env.closeRes with e | u2
      · exact ⟨e, by simp [run_body, ho, hr, hc]⟩
      · rcases hn : exp.next_evaluation_unixtime with _ | t
        · exact ⟨typeErrorMessage, by simp [run_body, ho, hr, hc, hn]⟩
        · have hne : exp.payload_size_b ≠ c.length := by
            rcases h with ⟨e, h1⟩ | ⟨e, h1⟩ | ⟨e, h1⟩ | h1 | ⟨c2, h1, h2⟩
            · simp [ho] at h1
            · simp [hr] at h1
            · simp [hc] at h1
            · simp [hn] at h1
            · rw [hr] at h1
              simp at h1
              subst h1
              exact h2
          refine ⟨"Expected payload size " ++ toString exp.payload_size_b ++ " but got "
            ++ toString c.length, ?_⟩
          simp [run_body, ho, hr, hc, hn, hne]

/-- The fields of a successful `try:` body result: only
`next_evaluation_unixtime` changes, advanced from its prior value. -/
theorem run_body_ok_fields (env : EvalEnv) (exp e : Experiment)
    (h : run_body env exp = Except.ok e) :
    e.dht_record_key = exp.dht_record_key ∧
    e.evaluation_start_unixtimes = exp.evaluation_start_unixtimes ∧
    e.evaluation_durations_s = exp.evaluation_durations_s ∧
    e.exception = exp.exception ∧
    ∃ t, exp.next_evaluation_unixtime = some t ∧
      e.next_evaluation_unixtime = some (t + (exp.evaluation_time_interval_h : ℚ) * 60 * 60) := by
  rcases ho : env.openRes with e1 | u
  · simp [run_body, ho] at h
  · rcases hr : env.readRes with e2 | c
    · simp [run_body, ho, hr] at h
    · rcases hc : env.closeRes with e3 | u2
      · simp [run_body, ho, hr, hc] at h
      · rcases hn : exp.next_evaluation_unixtime with _ | t
        · simp [run_body, ho, hr, hc, hn] at h
        · by_cases hl : exp.payload_size_b = c.length
          · simp [run_body, ho, hr, hc, hn, hl] at h
            subst h
            exact ⟨rfl, rfl, rfl, rfl, t, rfl, rfl⟩
          · simp [run_body, ho, hr, hc, hn, hl] at h

/-- On failure, `run_experiment` records the message and terminates the
schedule before appending the history entries. -/
theorem run_experiment_of_body_error (env : EvalEnv) (exp : Experiment) (m : String)
    (h : run_body env exp = Except.error m) :
    run_experiment env exp =
      { exp with
        exception := some m
        next_evaluation_unixtime := none
        evaluation_start_unixtimes := exp.evaluation_start_unixtimes ++ [env.startTime]
        evaluation_durations_s :=
          exp.evaluation_durations_s ++ [env.endTime - env.startTime] } := by
  simp [run_experiment, h]

theorem run_experiment_of_body_ok (env : EvalEnv) (exp e : Experiment)
    (h : run_body env exp = Except.ok e) :
    run_experiment env exp =
      { e with
        evaluation_start_unixtimes := e.evaluation_start_unixtimes ++ [env.startTime]
        evaluation_durations_s :=
          e.evaluation_durations_s ++ [env.endTime - env.startTime] } := by
  simp [run_experiment, h]

/-- Evaluation always appends exactly one start time. -/
theorem run_experiment_starts (env : EvalEnv) (exp : Experiment) :
    (run_experiment env exp).evaluation_start_unixtimes =
      exp.evaluation_start_unixtimes ++ [env.startTime] := by
  rcases hb : run_body env exp with m | e
  · rw [run_experiment_of_body_error env exp m hb]
  · rw [run_experiment_of_body_ok env exp e hb]
    simp [(run_body_ok_fields env exp e hb).2.1]

/-- Evaluation always appends exactly one duration. -/
theorem run_experiment_durs (env : EvalEnv) (exp : Experiment) :
    (run_experiment env exp).evaluation_durations_s =
      exp.evaluation_durations_s ++ [env.endTime - env.startTime] := by
  rcases hb : run_body env exp with m | e
  · rw [run_experiment_of_body_error env exp m hb]
  · rw [run_experiment_of_body_ok env exp e hb]
    simp [(run_body_ok_fields env exp e hb).2.2.1]

/-- Evaluation never changes `dht_record_key`. -/
theorem run_experiment_key (env : EvalEnv) (exp : Experiment) :
    (run_experiment env exp).dht_record_key = exp.dht_record_key := by
  rcases hb : run_body env exp with m | e
  · rw [run_experiment_of_body_error env exp m hb]
  · rw [run_experiment_of_body_ok env exp e hb]
    simp [(run_body_ok_fields env exp e hb).1]

/-! ## Basic lemmas about the dict embedding and the merge loops -/

theorem mem_dictInsert (m : Store) (k : String) (v : Experiment) (p : String × Experiment)
    (h : p ∈ dictInsert m k v) : p = (k, v) ∨ p ∈ m := by
  unfold dictInsert at h
  split at h
  · rcases List.mem_map.mp h with ⟨q, hq, hpq⟩
    by_cases hqk : q.1 = k
    · simp [hqk] at hpq
      exact Or.inl hpq.symm
    · simp [hqk] at hpq
      exact Or.inr (hpq ▸ hq)
  · rcases List.mem_append.mp h with h1 | h1
    · exact Or.inr h1
    · simp at h1
      exact Or.inl h1

theorem dictInsert_of_not_mem (m : Store) (k : String) (v : Experiment)
    (h : k ∉ m.map Prod.fst) : dictInsert m k v = m ++ [(k, v)] := by
  unfold dictInsert
  rw [if_neg h]

theorem dictLookup_append_ne (m : Store) (k k2 : String) (v : Experiment)
    (h : k2 ≠ k) : dictLookup (m ++ [(k2, v)]) k = dictLookup m k := by
  induction m with
  | nil => simp [dictLookup, h]
  | cons q rest ih =>
    by_cases hq : q.1 = k <;> simp [dictLookup, hq, ih]

theorem dictLookup_map_update_ne (m : Store) (k k2 : String) (v : Experiment)
    (h : k2 ≠ k) :
    dictLookup (m.map (fun p => if p.1 = k2 then (k2, v) else p)) k = dictLookup m k := by
  have hk2 : k ≠ k2 := Ne.symm h
  induction m with
  | nil => rfl
  | cons q rest ih =>
    by_cases hq : q.1 = k2
    · have hqk : q.1 ≠ k := fun hk => h (hq ▸ hk)
      simp [dictLookup, hq, hqk, hk2, h, ih]
    · by_cases hqk : q.1 = k <;> simp [dictLookup, hq, hqk, hk2, h, ih]

theorem dictLookup_dictInsert_ne (m : Store) (k k2 : String) (v : Experiment)
    (h : k2 ≠ k) : dictLookup (dictInsert m k2 v) k = dictLookup m k := by
  unfold dictInsert
  split
  · exact dictLookup_map_update_ne m k k2 v h
  · exact dictLookup_append_ne m k k2 v h

theorem dictLookup_eq_none (m : Store) (k : String)
    (h : ∀ p ∈ m, p.1 ≠ k) : dictLookup m k = none := by
  induction m with
  | nil => rfl
  | cons q rest ih =>
    have hq : q.1 ≠ k := h q (List.mem_cons_self q rest)
    simp [dictLookup, hq]
    exact ih (fun p hp => h p (List.mem_cons_of_mem q hp))

theorem dictLookup_of_mem (m : Store) (k : String) (v : Experiment)
    (hnd : (m.map Prod.fst).Nodup) (hmem : (k, v) ∈ m) :
    dictLookup m k = some v := by
  induction m with
  | nil => simp at hmem
  | cons q rest ih =>
    rw [List.map_cons, List.nodup_cons] at hnd
    rcases List.mem_cons.mp hmem with h1 | h1
    · simp [dictLookup, ← h1]
    · have hq : q.1 ≠ k := by
        intro hk
        exact hnd.1 (hk ▸ List.mem_map_of_mem Prod.fst h1)
      simp [dictLookup, hq]
      exact ih hnd.2 h1

/-- In a store with pairwise-distinct keys, two entries sharing a key are
the same entry. -/
theorem nodup_keys_entry_eq (m : Store) (hnd : (m.map Prod.fst).Nodup)
    (p q : String × Experiment) (hp : p ∈ m) (hq : q ∈ m) (hk : p.1 = q.1) : p = q := by
  induction m with
  | nil => simp at hp
  | cons x rest ih =>
    rw [List.map_cons, List.nodup_cons] at hnd
    rcases List.mem_cons.mp hp with h1 | h1 <;> rcases List.mem_cons.mp hq with h2 | h2
    · rw [h1, h2]
    · exfalso
      apply hnd.1
      rw [← h1, hk]
      exact List.mem_map_of_mem Prod.fst h2
    · exfalso
      apply hnd.1
      rw [← h2, ← hk]
      exact List.mem_map_of_mem Prod.fst h1
    · exact ih hnd.2 h1 h2

/-- Every entry of a merged store is either an inserted record (keyed by its
own `dht_record_key`) or an entry of the original store. -/
theorem mem_mergeRecords (records : List Experiment) (store : Store)
    (p : String × Experiment) (h : p ∈ mergeRecords store records) :
    (p.2 ∈ records ∧ p.1 = p.2.dht_record_key) ∨ p ∈ store := by
  induction records generalizing store with
  | nil => exact Or.inr h
  | cons e rest ih =>
    unfold mergeRecords at h ih
    simp at h
    rcases ih (dictInsert store e.dht_record_key e) h with h1 | h1
    · exact Or.inl ⟨List.mem_cons_of_mem e h1.1, h1.2⟩
    · rcases mem_dictInsert store e.dht_record_key e p h1 with h2 | h2
      · subst h2
        exact Or.inl ⟨List.mem_cons_self e rest, rfl⟩
      · exact Or.inr h2

/-- Merging records none of which carries key `k` leaves the entry at `k`
unchanged. -/
theorem dictLookup_mergeRecords_ne (records : List Experiment) (store : Store) (k : String)
    (h : ∀ e ∈ records, e.dht_record_key ≠ k) :
    dictLookup (mergeRecords store records) k = dictLookup store k := by
  induction records generalizing store with
  | nil => rfl
  | cons e rest ih =>
    unfold mergeRecords at ih ⊢
    simp
    rw [ih (dictInsert store e.dht_record_key e) (fun e2 h2 => h e2 (List.mem_cons_of_mem e h2))]
    exact dictLookup_dictInsert_ne store k e.dht_record_key e (h e (List.mem_cons_self e rest))

/-- Merging records with pairwise-distinct fresh keys into a store that
contains none of them appends them in order. -/
theorem mergeRecords_fresh (records : List Experiment) (store : Store)
    (hfresh : ∀ e ∈ records, e.dht_record_key ∉ store.map Prod.fst)
    (hnd : (records.map (fun e => e.dht_record_key)).Nodup) :
    mergeRecords store records = store ++ records.map (fun e => (e.dht_record_key, e)) := by
  induction records generalizing store with
  | nil => simp [mergeRecords]
  | cons e rest ih =>
    unfold mergeRecords at ih ⊢
    simp only [List.foldl_cons]
    rw [dictInsert_of_not_mem store e.dht_record_key e
      (hfresh e (List.mem_cons_self e rest))]
    rw [List.map_cons, List.nodup_cons] at hnd
    rw [ih (store ++ [(e.dht_record_key, e)]) ?_ hnd.2]
    · simp
    · intro e2 h2
      rw [List.map_append, List.mem_append]
      rintro (h3 | h3)
      · exact hfresh e2 (List.mem_cons_of_mem e h2) h3
      · simp at h3
        apply hnd.1
        rw [← h3]
        exact List.mem_map_of_mem (fun e => e.dht_record_key) h2

/-! ## Round-trip lemmas for the persisted document -/

theorem decodeNat_num (n : Nat) : decodeNat (Json.num (n : ℚ)) = some n := by
  simp [decodeNat]

theorem decodeNumList_map (l : List ℚ) : decodeNumList (l.map Json.num) = some l := by
  induction l with
  | nil => rfl
  | cons q rest ih => simp [decodeNumList, ih]

theorem experiment_roundtrip (e : Experiment) :
    experimentFromJson (experimentToJson e) = some e := by
  rcases e with ⟨ps, ival, key, next, starts, durs, exc⟩
  rcases exc with _ | s <;> rcases next with _ | t <;>
    simp [experimentToJson, experimentFromJson, decodeNat_num, decodeNumList_map,
      decodeOptTime, Bind.bind, Option.bind]

/-- The keys of the serialised document of a record that has failed. -/
theorem jsonKeys_experimentToJson_some (r : Experiment) (s : String) (h : r.exception = some s) :
    jsonKeys (experimentToJson r) =
      ["payload_size_b", "evaluation_time_interval_h", "dht_record_key",
       "next_evaluation_unixtime", "evaluation_start_unixtimes",
       "evaluation_durations_s", "exception"] := by
  simp [experimentToJson, jsonKeys, h]

/-! ## Basic lemmas about probe creation and the gathered batches -/

theorem create_experiment_ok_env (env : CreateEnv) (key : String)
    (h1 : env.createRes = Except.ok key) (h2 : env.setRes = Except.ok ())
    (h3 : settle_loop env.inspects = SettleResult.settled)
    (h4 : env.closeRes = Except.ok ()) :
    create_experiment env = CreateResult.ok
      { payload_size_b := env.payload.length
        evaluation_time_interval_h := interval_choices.get env.intervalIdx
        dht_record_key := key
        next_evaluation_unixtime := some env.finishTime
        evaluation_start_unixtimes := []
        evaluation_durations_s := []
        exception := none } := by
  simp [create_experiment, h1, h2, h3, h4]

theorem create_experiment_ok_fields (env : CreateEnv) (e : Experiment)
    (h : create_experiment env = CreateResult.ok e) :
    env.createRes = Except.ok e.dht_record_key ∧
    e.next_evaluation_unixtime = some env.finishTime ∧
    e.evaluation_time_interval_h ∈ interval_choices ∧
    e.evaluation_start_unixtimes = [] ∧
    e.evaluation_durations_s = [] := by
  rcases h1 : env.createRes with e1 | key
  · simp [create_experiment, h1] at h
  · rcases h2 : env.setRes with e2 | u
    · simp [create_experiment, h1, h2] at h
    · rcases h3 : settle_loop env.inspects with _ | e3 | _
      · rcases h4 : env.closeRes with e4 | u2
        · simp [create_experiment, h1, h2, h3, h4] at h
        · simp [create_experiment, h1, h2, h3, h4] at h
          subst h
          exact ⟨rfl, rfl, List.get_mem interval_choices env.intervalIdx env.intervalIdx.isLt,
            rfl, rfl⟩
      · simp [create_experiment, h1, h2, h3] at h
      · simp [create_experiment, h1, h2, h3] at h

theorem firstCreateError_of_mem_err (l : List CreateResult) (m : String)
    (h : CreateResult.err m ∈ l) : ∃ m2, firstCreateError l = some m2 := by
  induction l with
  | nil => simp at h
  | cons c rest ih =>
    rcases c with e | m3 | _
    · exact ih (by simpa using h)
    · exact ⟨m3, rfl⟩
    · exact ih (by simpa using h)

theorem firstCreateError_map_ok {α : Type} (l : List α) (g : α → Experiment) :
    firstCreateError (l.map (fun x => CreateResult.ok (g x))) = none := by
  induction l with
  | nil => rfl
  | cons x rest ih => simpa [firstCreateError] using ih

theorem anyCreateHang_map_ok {α : Type} (l : List α) (g : α → Experiment) :
    anyCreateHang (l.map (fun x => CreateResult.ok (g x))) = false := by
  simp [anyCreateHang]

theorem okRecords_map_ok {α : Type} (l : List α) (g : α → Experiment) :
    okRecords (l.map (fun x => CreateResult.ok (g x))) = l.map g := by
  induction l with
  | nil => rfl
  | cons x rest ih => simpa [okRecords] using ih

theorem mem_okRecords (l : List CreateResult) (e : Experiment)
    (h : e ∈ okRecords l) : CreateResult.ok e ∈ l := by
  induction l with
  | nil => simp [okRecords] at h
  | cons c rest ih =>
    rcases c with e2 | m | _
    · simp [okRecords] at h
      rcases h with h | h
      · simp [h]
      · simp [ih h]
    · simp [okRecords] at h
      simp [ih h]
    · simp [okRecords] at h
      simp [ih h]

/-! ## Lemmas unfolding one maintenance cycle -/

theorem main_saved_eq (store : Store) (now : ℚ) (evalEnv : String → EvalEnv)
    (createEnv : Nat → CreateEnv) (store' : Store)
    (h : main store now evalEnv createEnv = CycleResult.saved store') :
    store' = mergeRecords (mergedAfterEvaluations store now evalEnv)
      (okRecords (mainCreations store now evalEnv createEnv)) := by
  unfold main at h
  rcases hfe : firstCreateError (mainCreations store now evalEnv createEnv) with _ | m
  · rw [hfe] at h
    by_cases hh : anyCreateHang (mainCreations store now evalEnv createEnv)
    · simp [hh] at h
    · simp [hh] at h
      exact h.symm
  · rw [hfe] at h
    simp at h

theorem main_raised_of_err (store : Store) (now : ℚ) (evalEnv : String → EvalEnv)
    (createEnv : Nat → CreateEnv) (m : String)
    (h : CreateResult.err m ∈ mainCreations store now evalEnv createEnv) :
    (main store now evalEnv createEnv).isRaised = true := by
  obtain ⟨m2, hm2⟩ := firstCreateError_of_mem_err _ m h
  unfold main
  rw [hm2]
  rfl

/-! ## Claim theorems -/

/-- C1: For every probe record evaluated successfully (the record is opened,
subkey 0 is read, the record is closed, and the returned payload length
equals the stored `payload_size_b`), the returned record's
`next_evaluation_unixtime` equals the input record's
`next_evaluation_unixtime` plus `evaluation_time_interval_h * 3600` exactly,
computed from the prior scheduled value, not from the current wall-clock
time (the conclusion does not involve the clock readings of the
environment). -/
theorem C1_success_advances_schedule_from_prior_value (env : EvalEnv) (exp : Experiment)
    (t : ℚ) (c : List Nat)
    (ho : env.openRes = Except.ok ()) (hr : env.readRes = Except.ok c)
    (hc : env.closeRes = Except.ok ()) (hn : exp.next_evaluation_unixtime = some t)
    (hl : c.length = exp.payload_size_b) :
    (run_experiment env exp).next_evaluation_unixtime =
      some (t + (exp.evaluation_time_interval_h : ℚ) * 3600) := by
  rw [run_experiment_of_body_ok env exp _ (run_body_success env exp t c ho hr hc hn hl.symm)]
  show some (t + (exp.evaluation_time_interval_h : ℚ) * 60 * 60) = _
  norm_num [mul_assoc]

/-- Witness for C1 at a concrete successful evaluation. -/
theorem C1_witness :
    (run_experiment ⟨100, 101, Except.ok (), Except.ok [5, 6, 7], Except.ok ()⟩
      ⟨3, 12, "key0", some 50, [], [], none⟩).next_evaluation_unixtime =
      some (50 + ((12 : Nat) : ℚ) * 3600) :=
  C1_success_advances_schedule_from_prior_value
    ⟨100, 101, Except.ok (), Except.ok [5, 6, 7], Except.ok ()⟩
    ⟨3, 12, "key0", some 50, [], [], none⟩ 50 [5, 6, 7] rfl rfl rfl rfl rfl

/-- C3: If the evaluation fails (network failure in open, read or close, or
the returned payload length differs from the stored `payload_size_b`), it
does not raise to the caller: the returned record has
`next_evaluation_unixtime = None`, a recorded failure reason, and exactly
one start/duration pair appended to the history sequences. -/
theorem C3_failed_evaluation_is_contained_and_terminal (env : EvalEnv) (exp : Experiment)
    (h : (∃ e, env.openRes = Except.error e) ∨ (∃ e, env.readRes = Except.error e) ∨
      (∃ e, env.closeRes = Except.error e) ∨
      (∃ c, env.readRes = Except.ok c ∧ c.length ≠ exp.payload_size_b)) :
    (run_experiment env exp).next_evaluation_unixtime = none ∧
    (run_experiment env exp).exception.isSome = true ∧
    (run_experiment env exp).evaluation_start_unixtimes =
      exp.evaluation_start_unixtimes ++ [env.startTime] ∧
    (run_experiment env exp).evaluation_durations_s =
      exp.evaluation_durations_s ++ [env.endTime - env.startTime] := by
  have hshape : (∃ e, env.openRes = Except.error e) ∨ (∃ e, env.readRes = Except.error e) ∨
      (∃ e, env.closeRes = Except.error e) ∨ exp.next_evaluation_unixtime = none ∨
      (∃ c, env.readRes = Except.ok c ∧ exp.payload_size_b ≠ c.length) := by
    rcases h with h | h | h | ⟨c, hc, hne⟩
    · exact Or.inl h
    · exact Or.inr (Or.inl h)
    · exact Or.inr (Or.inr (Or.inl h))
    · exact Or.inr (Or.inr (Or.inr (Or.inr ⟨c, hc, Ne.symm hne⟩)))
  obtain ⟨m, hm⟩ := run_body_error_shapes env exp hshape
  rw [run_experiment_of_body_error env exp m hm]
  exact ⟨rfl, rfl, rfl, rfl⟩

/-- Witness for C3 at a concrete failing evaluation (the open call fails). -/
theorem C3_witness :
    (run_experiment ⟨7, 9, Except.error "connection lost", Except.ok [], Except.ok ()⟩
      ⟨4, 24, "key1", some 33, [3], [1], none⟩).next_evaluation_unixtime = none ∧
    (run_experiment ⟨7, 9, Except.error "connection lost", Except.ok [], Except.ok ()⟩
      ⟨4, 24, "key1", some 33, [3], [1], none⟩).exception.isSome = true ∧
    (run_experiment ⟨7, 9, Except.error "connection lost", Except.ok [], Except.ok ()⟩
      ⟨4, 24, "key1", some 33, [3], [1], none⟩).evaluation_start_unixtimes = [3] ++ [7] ∧
    (run_experiment ⟨7, 9, Except.error "connection lost", Except.ok [], Except.ok ()⟩
      ⟨4, 24, "key1", some 33, [3], [1], none⟩).evaluation_durations_s = [1] ++ [9 - 7] :=
  C3_failed_evaluation_is_contained_and_terminal
    ⟨7, 9, Except.error "connection lost", Except.ok [], Except.ok ()⟩
    ⟨4, 24, "key1", some 33, [3], [1], none⟩ (Or.inl ⟨"connection lost", rfl⟩)

/-- C10: The evaluation is total even on records violating its stated
precondition: called on a record whose `next_evaluation_unixtime` is already
`None`, it does not raise (the `None + int` arithmetic raises a `TypeError`
caught like any other failure) and the returned record has a null schedule,
a recorded failure reason, and exactly one new entry appended to each
history sequence. -/
theorem C10_evaluation_total_on_terminated_record (env : EvalEnv) (exp : Experiment)
    (h : exp.next_evaluation_unixtime = none) :
    (run_experiment env exp).next_evaluation_unixtime = none ∧
    (run_experiment env exp).exception.isSome = true ∧
    (run_experiment env exp).evaluation_start_unixtimes =
      exp.evaluation_start_unixtimes ++ [env.startTime] ∧
    (run_experiment env exp).evaluation_durations_s =
      exp.evaluation_durations_s ++ [env.endTime - env.startTime] := by
  obtain ⟨m, hm⟩ := run_body_error_shapes env exp (Or.inr (Or.inr (Or.inr (Or.inl h))))
  rw [run_experiment_of_body_error env exp m hm]
  exact ⟨rfl, rfl, rfl, rfl⟩

/-- Witness for C10: all network calls succeed, yet the record's schedule is
already null. -/
theorem C10_witness :
    (run_experiment ⟨20, 21, Except.ok (), Except.ok [1, 2], Except.ok ()⟩
      ⟨2, 1, "key2", none, [5], [6], some "old"⟩).next_evaluation_unixtime = none ∧
    (run_experiment ⟨20, 21, Except.ok (), Except.ok [1, 2], Except.ok ()⟩
      ⟨2, 1, "key2", none, [5], [6], some "old"⟩).exception.isSome = true ∧
    (run_experiment ⟨20, 21, Except.ok (), Except.ok [1, 2], Except.ok ()⟩
      ⟨2, 1, "key2", none, [5], [6], some "old"⟩).evaluation_start_unixtimes = [5] ++ [20] ∧
    (run_experiment ⟨20, 21, Except.ok (), Except.ok [1, 2], Except.ok ()⟩
      ⟨2, 1, "key2", none, [5], [6], some "old"⟩).evaluation_durations_s = [6] ++ [21 - 20] :=
  C10_evaluation_total_on_terminated_record
    ⟨20, 21, Except.ok (), Except.ok [1, 2], Except.ok ()⟩
    ⟨2, 1, "key2", none, [5], [6], some "old"⟩ rfl

/-- C8 counterexample: a concrete terminating evaluation (payload-size
mismatch) whose returned record's persisted document has no field named
`failure_reason`: the failure reason is stored under the key `exception`
instead. -/
theorem C8_counterexample :
    (run_experiment ⟨100, 101, Except.ok (), Except.ok [0], Except.ok ()⟩
      ⟨500, 1, "key3", some 10, [], [], none⟩).next_evaluation_unixtime = none ∧
    "failure_reason" ∉ jsonKeys (experimentToJson
      (run_experiment ⟨100, 101, Except.ok (), Except.ok [0], Except.ok ()⟩
        ⟨500, 1, "key3", some 10, [], [], none⟩)) := by
  constructor
  · rfl
  · rw [jsonKeys_experimentToJson_some _ "Expected payload size 500 but got 1" rfl]
    decide

/-- C8 amended: on the evaluation that causes a probe's termination, the
returned record carries a field named `exception` (not `failure_reason`)
holding the string describing the failure, and `exception` is the key the
persisted document exposes to consumers for failed probes. -/
theorem C8_amended_failure_field_is_named_exception (env : EvalEnv) (exp : Experiment)
    (hterm : (run_experiment env exp).next_evaluation_unixtime = none) :
    (run_experiment env exp).exception.isSome = true ∧
    "exception" ∈ jsonKeys (experimentToJson (run_experiment env exp)) ∧
    "failure_reason" ∉ jsonKeys (experimentToJson (run_experiment env exp)) := by
  rcases hb : run_body env exp with m | e
  · rw [run_experiment_of_body_error env exp m hb] at hterm ⊢
    refine ⟨rfl, ?_, ?_⟩
    · rw [jsonKeys_experimentToJson_some _ m rfl]
      decide
    · rw [jsonKeys_experimentToJson_some _ m rfl]
      decide
  · exfalso
    obtain ⟨-, -, -, -, t, ht, hnext⟩ := run_body_ok_fields env exp e hb
    rw [run_experiment_of_body_ok env exp e hb] at hterm
    simp at hterm
    rw [hnext] at hterm
    exact Option.some_ne_none _ hterm

/-- Witness for the amended C8 at a concrete terminating evaluation. -/
theorem C8_amended_witness :
    (run_experiment ⟨40, 42, Except.error "route dead", Except.ok [], Except.ok ()⟩
      ⟨9, 168, "key4", some 5, [], [], none⟩).exception.isSome = true ∧
    "exception" ∈ jsonKeys (experimentToJson
      (run_experiment ⟨40, 42, Except.error "route dead", Except.ok [], Except.ok ()⟩
        ⟨9, 168, "key4", some 5, [], [], none⟩)) ∧
    "failure_reason" ∉ jsonKeys (experimentToJson
      (run_experiment ⟨40, 42, Except.error "route dead", Except.ok [], Except.ok ()⟩
        ⟨9, 168, "key4", some 5, [], [], none⟩)) :=
  C8_amended_failure_field_is_named_exception
    ⟨40, 42, Except.error "route dead", Except.ok [], Except.ok ()⟩
    ⟨9, 168, "key4", some 5, [], [], none⟩ rfl

/-- C9: serialising the in-memory experiments mapping to the persisted JSON
document and parsing it back yields the same mapping (save-then-load is the
identity on the store contents). -/
theorem C9_save_load_roundtrip_is_identity (store : Store) :
    storeFromJson (storeToJson store) = some store := by
  induction store with
  | nil => rfl
  | cons p rest ih =>
    simp only [storeToJson, List.map_cons, storeFromJson, storeEntriesFromJson] at ih ⊢
    rw [experiment_roundtrip, ih]

/-- Witness for C9 at a concrete one-record store. -/
theorem C9_witness :
    storeFromJson (storeToJson
      [("k9", (⟨7, 12, "k9", some 3, [4], [5], some "gone"⟩ : Experiment))]) =
      some [("k9", (⟨7, 12, "k9", some 3, [4], [5], some "gone"⟩ : Experiment))] :=
  C9_save_load_roundtrip_is_identity
    [("k9", ⟨7, 12, "k9", some 3, [4], [5], some "gone"⟩)]

/-- C5: after any maintenance cycle that persists, every record of the
persisted store has equally long `evaluation_start_unixtimes` and
`evaluation_durations_s` sequences, provided the loaded store satisfied the
invariant: new records start with both sequences empty and every evaluation
appends exactly one element to each. -/
theorem C5_history_lengths_stay_aligned (store : Store) (now : ℚ)
    (evalEnv : String → EvalEnv) (createEnv : Nat → CreateEnv) (store' : Store)
    (k2 : String) (v2 : Experiment)
    (hinv : ∀ p ∈ store, (p.2 : Experiment).evaluation_start_unixtimes.length =
      (p.2 : Experiment).evaluation_durations_s.length)
    (hsave : main store now evalEnv createEnv = CycleResult.saved store')
    (hp : (k2, v2) ∈ store') :
    v2.evaluation_start_unixtimes.length = v2.evaluation_durations_s.length := by
  have hst := main_saved_eq store now evalEnv createEnv store' hsave
  subst hst
  rcases mem_mergeRecords _ _ _ hp with ⟨hmem, -⟩ | hp2
  · rcases List.mem_map.mp (mem_okRecords _ _ hmem) with ⟨i, -, hi⟩
    obtain ⟨-, -, -, hs, hd⟩ := create_experiment_ok_fields (createEnv i) v2 hi
    rw [hs, hd]
  · rcases mem_mergeRecords _ _ _ hp2 with ⟨hmem, -⟩ | hp3
    · rcases List.mem_map.mp hmem with ⟨q, hq, hrun⟩
      have hqinv := hinv q (List.mem_filter.mp hq).1
      have hrun2 : run_experiment (evalEnv q.1) q.2 = v2 := hrun
      rw [← hrun2, run_experiment_starts, run_experiment_durs]
      simp [hqinv]
    · exact hinv (k2, v2) hp3

/-- Witness for C5: a store of 100 active, not-yet-due records; the cycle
persists it unchanged and the invariant holds at its first entry. -/
theorem C5_witness :
    (([4] : List ℚ)).length = (([2] : List ℚ)).length :=
  C5_history_lengths_stay_aligned
    ((List.range 100).map (fun i =>
      (String.mk (List.replicate i 'a'), (⟨5, 1, "w", some 1, [4], [2], none⟩ : Experiment))))
    0 (fun _ => ⟨0, 0, Except.ok (), Except.ok [], Except.ok ()⟩)
    (fun _ => ⟨[], Except.ok "c", Except.ok (), [Except.ok []], Except.ok (),
      ⟨0, by decide⟩, 0⟩)
    ((List.range 100).map (fun i =>
      (String.mk (List.replicate i 'a'), (⟨5, 1, "w", some 1, [4], [2], none⟩ : Experiment))))
    (String.mk (List.replicate 0 'a')) ⟨5, 1, "w", some 1, [4], [2], none⟩
    (fun p hp => by
      rcases List.mem_map.mp hp with ⟨i, -, h⟩
      rw [← h]
      rfl)
    (by rfl)
    (List.mem_map.mpr ⟨0, by decide, rfl⟩)

/-- C6: a record whose `next_evaluation_unixtime` is null is never selected
as due, and survives a persisting maintenance cycle unchanged (in
particular its schedule stays null): termination is permanent, given that
the store keys records by their own `dht_record_key`, keys are unique, and
the network-assigned keys of newly created records are fresh. -/
theorem C6_terminated_record_stays_terminated (store : Store) (now : ℚ)
    (evalEnv : String → EvalEnv) (createEnv : Nat → CreateEnv) (store' : Store)
    (k : String) (v : Experiment)
    (hnd : (store.map Prod.fst).Nodup)
    (hwf : ∀ p ∈ store, (p.2 : Experiment).dht_record_key = p.1)
    (hmem : (k, v) ∈ store)
    (hterm : v.next_evaluation_unixtime = none)
    (hfresh : ∀ i key2, (createEnv i).createRes = Except.ok key2 → key2 ≠ k)
    (hsave : main store now evalEnv createEnv = CycleResult.saved store') :
    dictLookup (pendingExperiments store now) k = none ∧
    dictLookup store' k = some v := by
  have hpkeys : ∀ p ∈ pendingExperiments store now, p.1 ≠ k := by
    intro p hpend hpk
    have hps := (List.mem_filter.mp hpend).1
    have hpred := (List.mem_filter.mp hpend).2
    have hpv : p = (k, v) :=
      nodup_keys_entry_eq store hnd p (k, v) hps hmem (by rw [hpk])
    rw [hpv] at hpred
    simp [hterm] at hpred
  refine ⟨dictLookup_eq_none _ _ hpkeys, ?_⟩
  have hst := main_saved_eq store now evalEnv createEnv store' hsave
  subst hst
  have hcreated : ∀ e ∈ okRecords (mainCreations store now evalEnv createEnv),
      e.dht_record_key ≠ k := by
    intro e he
    rcases List.mem_map.mp (mem_okRecords _ _ he) with ⟨i, -, hi⟩
    obtain ⟨hc, -, -, -, -⟩ := create_experiment_ok_fields (createEnv i) e hi
    exact hfresh i e.dht_record_key hc
  rw [dictLookup_mergeRecords_ne _ _ _ hcreated]
  have hupd : ∀ e ∈ (pendingExperiments store now).map
      (fun p => run_experiment (evalEnv p.1) p.2), e.dht_record_key ≠ k := by
    intro e he
    rcases List.mem_map.mp he with ⟨q, hq, hrun⟩
    rw [← hrun, run_experiment_key, hwf q (List.mem_filter.mp hq).1]
    exact hpkeys q hq
  unfold mergedAfterEvaluations
  rw [dictLookup_mergeRecords_ne _ _ _ hupd]
  exact dictLookup_of_mem store k v hnd hmem

set_option maxRecDepth 8000 in
/-- Witness for C6: one terminated record; the cycle creates 100 fresh
probes under the key "c" and persists, leaving the terminated record
untouched. -/
theorem C6_witness :
    dictLookup (pendingExperiments
      [("k", (⟨1, 1, "k", none, [2], [3], some "boom"⟩ : Experiment))] 0) "k" = none ∧
    dictLookup [("k", (⟨1, 1, "k", none, [2], [3], some "boom"⟩ : Experiment)),
      ("c", (⟨0, 1, "c", some 0, [], [], none⟩ : Experiment))] "k" =
      some ⟨1, 1, "k", none, [2], [3], some "boom"⟩ :=
  C6_terminated_record_stays_terminated
    [("k", ⟨1, 1, "k", none, [2], [3], some "boom"⟩)] 0
    (fun _ => ⟨0, 0, Except.ok (), Except.ok [], Except.ok ()⟩)
    (fun _ => ⟨[], Except.ok "c", Except.ok (), [Except.ok []], Except.ok (),
      ⟨0, by decide⟩, 0⟩)
    [("k", ⟨1, 1, "k", none, [2], [3], some "boom"⟩),
      ("c", ⟨0, 1, "c", some 0, [], [], none⟩)]
    "k" ⟨1, 1, "k", none, [2], [3], some "boom"⟩
    (by decide)
    (fun p hp => by rw [List.mem_singleton.mp hp])
    (List.mem_singleton.mpr rfl)
    rfl
    (fun i key2 h => by
      injection h with h2
      rw [← h2]
      decide)
    (by rfl)

/-- C2 counterexample: a cycle in which every probe-creation attempt raises;
the exception propagates out of `asyncio.gather` and the cycle aborts with
the exception instead of continuing through to persistence. -/
theorem C2_counterexample :
    main [] 0 (fun _ => ⟨0, 0, Except.ok (), Except.ok [], Except.ok ()⟩)
      (fun _ => ⟨[], Except.error "create failed", Except.ok (), [], Except.ok (),
        ⟨0, by decide⟩, 0⟩) = CycleResult.raised "create failed" := by
  rfl

/-- C2 amended: a failed creation attempt does not add a record to the
store, but the failure is not contained at the creation boundary:
`create_experiment` has no exception handler and `asyncio.gather` is called
with the default `return_exceptions=False`, so the exception propagates and
the cycle ends raised — nothing is persisted — whenever any launched
creation attempt fails. -/
theorem C2_amended_creation_failure_aborts_cycle (store : Store) (now : ℚ)
    (evalEnv : String → EvalEnv) (createEnv : Nat → CreateEnv) (i : Nat) (m : String)
    (hi : i < cycleNumNew store now evalEnv)
    (herr : create_experiment (createEnv i) = CreateResult.err m) :
    (main store now evalEnv createEnv).isRaised = true := by
  apply main_raised_of_err store now evalEnv createEnv m
  unfold mainCreations
  exact List.mem_map.mpr ⟨i, List.mem_range.mpr hi, herr⟩

/-- Witness for the amended C2. -/
theorem C2_amended_witness :
    (main [] 0 (fun _ => ⟨0, 0, Except.ok (), Except.ok [], Except.ok ()⟩)
      (fun _ => ⟨[], Except.error "boom", Except.ok (), [], Except.ok (),
        ⟨0, by decide⟩, 0⟩)).isRaised = true :=
  C2_amended_creation_failure_aborts_cycle [] 0
    (fun _ => ⟨0, 0, Except.ok (), Except.ok [], Except.ok ()⟩)
    (fun _ => ⟨[], Except.error "boom", Except.ok (), [], Except.ok (),
      ⟨0, by decide⟩, 0⟩)
    0 "boom" (by decide) rfl

/-- C7: a maintenance cycle creates exactly
`max(0, num_max_experiments - len(active))` new probes, `active` being the
merged records with non-null `next_evaluation_unixtime`; and starting from
an empty store with the configured target of 100, a cycle with zero
creation failures and network-assigned unique keys persists exactly 100 new
active probes, each with `evaluation_time_interval_h` drawn from
`interval_choices` and a unique record key. -/
theorem C7_cycle_fills_population_deficit (now : ℚ) (evalEnv : String → EvalEnv)
    (createEnv : Nat → CreateEnv) (keyFn : Nat → String) (store' : Store)
    (hok : ∀ i, i < num_max_experiments →
      (createEnv i).createRes = Except.ok (keyFn i) ∧
      (createEnv i).setRes = Except.ok () ∧
      settle_loop (createEnv i).inspects = SettleResult.settled ∧
      (createEnv i).closeRes = Except.ok ())
    (hdist : ∀ i j, i < num_max_experiments → j < num_max_experiments → i ≠ j →
      keyFn i ≠ keyFn j)
    (hsave : main [] now evalEnv createEnv = CycleResult.saved store') :
    (∀ store : Store, (cycleNumNew store now evalEnv : ℤ) =
      max 0 ((num_max_experiments : ℤ) -
        ((activeExperiments (mergedAfterEvaluations store now evalEnv)).length : ℤ))) ∧
    store'.length = num_max_experiments ∧
    (store'.map Prod.fst).Nodup ∧
    (∀ p ∈ store', (p.2 : Experiment).next_evaluation_unixtime.isSome = true ∧
      (p.2 : Experiment).evaluation_time_interval_h ∈ interval_choices) := by
  have hdeficit : ∀ store : Store, (cycleNumNew store now evalEnv : ℤ) =
      max 0 ((num_max_experiments : ℤ) -
        ((activeExperiments (mergedAfterEvaluations store now evalEnv)).length : ℤ)) := by
    intro store
    unfold cycleNumNew num_new_experiments
    exact Int.toNat_of_nonneg (le_max_left 0 _)
  refine ⟨hdeficit, ?_⟩
  have hcn : cycleNumNew [] now evalEnv = num_max_experiments := by rfl
  set rec : Nat → Experiment := fun i =>
    { payload_size_b := (createEnv i).payload.length
      evaluation_time_interval_h := interval_choices.get (createEnv i).intervalIdx
      dht_record_key := keyFn i
      next_evaluation_unixtime := some (createEnv i).finishTime
      evaluation_start_unixtimes := []
      evaluation_durations_s := []
      exception := none } with hrec
  have hcreate : ∀ i ∈ List.range num_max_experiments,
      (fun i => create_experiment (createEnv i)) i = (fun i => CreateResult.ok (rec i)) i := by
    intro i hi
    obtain ⟨h1, h2, h3, h4⟩ := hok i (List.mem_range.mp hi)
    exact create_experiment_ok_env (createEnv i) (keyFn i) h1 h2 h3 h4
  have hcreations : mainCreations [] now evalEnv createEnv =
      (List.range num_max_experiments).map (fun i => CreateResult.ok (rec i)) := by
    unfold mainCreations
    rw [hcn]
    exact List.map_congr_left hcreate
  have hkeysn : ((List.range num_max_experiments).map rec |>.map
      (fun e => e.dht_record_key)).Nodup := by
    rw [List.map_map]
    have hco : ((fun e => e.dht_record_key) ∘ rec) = keyFn := by
      funext i
      rfl
    rw [hco]
    refine List.Nodup.map_on ?_ (List.nodup_range num_max_experiments)
    intro x hx y hy hxy
    by_contra hne
    exact hdist x y (List.mem_range.mp hx) (List.mem_range.mp hy) hne hxy
  have hst := main_saved_eq [] now evalEnv createEnv store' hsave
  rw [hcreations, okRecords_map_ok] at hst
  have hmerged0 : mergedAfterEvaluations [] now evalEnv = [] := rfl
  rw [hmerged0] at hst
  rw [mergeRecords_fresh _ _ (by simp) hkeysn] at hst
  subst hst
  refine ⟨?_, ?_, ?_⟩
  · simp [num_max_experiments]
  · rw [List.nil_append, List.map_map, List.map_map]
    have hco : ((Prod.fst ∘ fun e => (e.dht_record_key, e)) ∘ rec) = keyFn := by
      funext i
      rfl
    rw [hco]
    refine List.Nodup.map_on ?_ (List.nodup_range num_max_experiments)
    intro x hx y hy hxy
    by_contra hne
    exact hdist x y (List.mem_range.mp hx) (List.mem_range.mp hy) hne hxy
  · intro p hp
    rw [List.nil_append, List.map_map] at hp
    rcases List.mem_map.mp hp with ⟨i, -, hi⟩
    rw [← hi]
    exact ⟨rfl, List.get_mem interval_choices _ (createEnv i).intervalIdx.isLt⟩

set_option maxRecDepth 40000 in
/-- Witness for C7: from the empty store, with 100 succeeding creations
under pairwise-distinct keys, the persisted store has exactly 100 entries
under distinct keys. -/
theorem C7_witness :
    ((List.range 100).map (fun i =>
      (String.mk (List.replicate i 'a'),
        (⟨0, 1, String.mk (List.replicate i 'a'), some 0, [], [], none⟩ : Experiment)))).length
      = num_max_experiments ∧
    (((List.range 100).map (fun i =>
      (String.mk (List.replicate i 'a'),
        (⟨0, 1, String.mk (List.replicate i 'a'), some 0, [], [], none⟩ : Experiment)))).map
        Prod.fst).Nodup :=
  ⟨(C7_cycle_fills_population_deficit 0
    (fun _ => ⟨0, 0, Except.ok (), Except.ok [], Except.ok ()⟩)
    (fun i => ⟨[], Except.ok (String.mk (List.replicate i 'a')), Except.ok (),
      [Except.ok []], Except.ok (), ⟨0, by decide⟩, 0⟩)
    (fun i => String.mk (List.replicate i 'a'))
    ((List.range 100).map (fun i =>
      (String.mk (List.replicate i 'a'),
        (⟨0, 1, String.mk (List.replicate i 'a'), some 0, [], [], none⟩ : Experiment))))
    (fun i hi => ⟨rfl, rfl, rfl, rfl⟩)
    (fun i j hi hj hne heq => hne (by
      have h2 := congrArg (fun s => s.data.length) heq
      simpa using h2))
    (by rfl)).2.1,
  (C7_cycle_fills_population_deficit 0
    (fun _ => ⟨0, 0, Except.ok (), Except.ok [], Except.ok ()⟩)
    (fun i => ⟨[], Except.ok (String.mk (List.replicate i 'a')), Except.ok (),
      [Except.ok []], Except.ok (), ⟨0, by decide⟩, 0⟩)
    (fun i => String.mk (List.replicate i 'a'))
    ((List.range 100).map (fun i =>
      (String.mk (List.replicate i 'a'),
        (⟨0, 1, String.mk (List.replicate i 'a'), some 0, [], [], none⟩ : Experiment))))
    (fun i hi => ⟨rfl, rfl, rfl, rfl⟩)
    (fun i j hi hj hne heq => hne (by
      have h2 := congrArg (fun s => s.data.length) heq
      simpa using h2))
    (by rfl)).2.2.1⟩

end VeilidDhtStats
